import Mathlib

/-!
Verification of the MCP PR-agent starter servers
(projects/unit3/github-actions-integration/starter/server.py and
projects/unit3/build-mcp-server/starter/server.py).

The github-actions-integration variant is modelled in full.  The
build-mcp-server variant is syntactically invalid Python (line 89 reads
an assignment with no right-hand side, so the module cannot be
imported); the spec itself flags that construction as malformed, and the
claims are therefore settled against the github-actions-integration
variant, which is the runnable code.

Modelling conventions:
  - JSON values passed to json.dumps are modelled by the inductive JVal;
    an operation that returns a JSON string is modelled as returning the
    JVal it serialises.
  - Python exceptions are modelled with Except PyError; an operation
    wrapped in try/except is total, one without a handler returns
    Except.
  - Each subprocess.run invocation is modelled by a ProcResult supplied
    as input (exit code, stdout, stderr).
  - A JSON event object is modelled by the CIEvent structure holding the
    fields the code reads; an Option field is none when the key is
    absent (event.get returns the default).
-/

/-- Model of a JSON value as produced by json.dumps. -/
inductive JVal where
  | str (s : String)
  | num (n : Int)
  | bool (b : Bool)
  | null
  | arr (xs : List JVal)
  | obj (fields : List (String × JVal))

/-- Look a key up in a JSON object (none for non-objects or absent keys). -/
def objLookup (k : String) : JVal → Option JVal
  | .obj fields => fields.lookup k
  | _ => none

/-- Keys of a JSON object, in order. -/
def objKeys : JVal → List String
  | .obj fields => fields.map Prod.fst
  | _ => []

/-- Model of a Python exception class raised by the code under study. -/
inductive PyError where
  | fileNotFound
  | typeError
  | indexError
deriving DecidableEq

/-- Result of one subprocess.run invocation, supplied as environment. -/
structure ProcResult where
  exitCode : Int
  stdout : String
  stderr : String
deriving DecidableEq

/-- The four git commands analyze_file_changes runs, in source order:
diff --name-status, diff --stat, diff, log --oneline. -/
structure GitEnv where
  nameStatus : ProcResult
  diffStat : ProcResult
  fullDiff : ProcResult
  commitLog : ProcResult
deriving DecidableEq

/-- Helper for pySplitNL, structurally recursive over the characters. -/
def splitNLAux : List Char → List Char → List String
  | [], acc => [String.mk acc.reverse]
  | c :: cs, acc =>
    if c = Char.ofNat 10 then String.mk acc.reverse :: splitNLAux cs []
    else splitNLAux cs (c :: acc)

/-- Model of the Python expression s.split(chr(10)): split on every
newline character, keeping empty pieces, so the result always has
(number of newlines + 1) elements. -/
def pySplitNL (s : String) : List String :=
  splitNLAux s.data []

/-- Python list slicing xs[:n] (a negative n counts from the end). -/
def pyTake (xs : List α) (n : Int) : List α :=
  if 0 ≤ n then xs.take n.toNat
  else xs.take ((xs.length : Int) + n).toNat

/-- The diff-truncation step of analyze_file_changes
(github-actions-integration variant, server.py lines 95-104): splits
stdout on newlines, and if the line count exceeds max_diff_lines keeps
the first max_diff_lines lines and appends the two-line truncation
notice; returns the (diff_content, truncated) pair. -/
def processDiff (raw : String) (max_diff_lines : Int) : String × Bool :=
  if ((pySplitNL raw).length : Int) > max_diff_lines then
    (String.intercalate "\n" (pyTake (pySplitNL raw) max_diff_lines)
      ++ "\n\n... Output truncated. Showing " ++ toString max_diff_lines
      ++ " of " ++ toString (pySplitNL raw).length ++ " lines ..."
      ++ "\n... Use max_diff_lines parameter to see more ...",
     true)
  else (raw, false)

/-- Model of analyze_file_changes (github-actions-integration variant,
server.py lines 57-128).  The first git command runs with check=True, so
a non-zero exit raises CalledProcessError, caught and turned into the
Git error object; the remaining commands are not checked and their
stdout is used as-is.  The whole body is wrapped in try/except, so the
operation always returns a JSON value. -/
def analyze_file_changes (env : GitEnv) (base_branch : String)
    (include_diff : Bool) (max_diff_lines : Int) : JVal :=
  if env.nameStatus.exitCode ≠ 0 then
    .obj [("error", .str ("Git error: " ++ env.nameStatus.stderr))]
  else
    .obj [("base_branch", .str base_branch),
          ("files_changed", .str env.nameStatus.stdout),
          ("statistics", .str env.diffStat.stdout),
          ("commits", .str env.commitLog.stdout),
          ("diff", if include_diff then .str (processDiff env.fullDiff.stdout max_diff_lines).1
                   else .str "Diff not included (set include_diff=true to see full diff)"),
          ("truncated", .bool (if include_diff then (processDiff env.fullDiff.stdout max_diff_lines).2
                               else false)),
          ("total_diff_lines",
           .num (if include_diff then ((pySplitNL env.fullDiff.stdout).length : Int) else 0))]

/-- pyTake with a natural bound is List.take. -/
theorem pyTake_ofNat (xs : List α) (n : Nat) : pyTake xs (n : Int) = xs.take n := by
  simp [pyTake]

/-- Printing a natural number through the integer coercion is unchanged. -/
theorem toString_intOfNat (n : Nat) : toString ((n : Nat) : Int) = toString n := rfl

/-- C1: with include_diff=true, if the raw diff has L lines and
max_diff_lines = M < L, the returned diff is exactly the first M content
lines followed by the two-line truncation notice reporting M of L lines
and how to request more, and the truncation flag is true; if M >= L the
returned diff is the raw diff unmodified and the flag is false.
(The git diff --name-status command must succeed, otherwise the
operation takes the error path.) -/
theorem analyze_file_changes_truncation_law (env : GitEnv) (base_branch : String)
    (M : Nat) (hok : env.nameStatus.exitCode = 0) :
    (M < (pySplitNL env.fullDiff.stdout).length →
      objLookup "diff" (analyze_file_changes env base_branch true (M : Int)) =
        some (.str (String.intercalate "\n" ((pySplitNL env.fullDiff.stdout).take M)
          ++ "\n\n... Output truncated. Showing " ++ toString M
          ++ " of " ++ toString (pySplitNL env.fullDiff.stdout).length ++ " lines ..."
          ++ "\n... Use max_diff_lines parameter to see more ...")) ∧
      objLookup "truncated" (analyze_file_changes env base_branch true (M : Int)) =
        some (.bool true)) ∧
    ((pySplitNL env.fullDiff.stdout).length ≤ M →
      objLookup "diff" (analyze_file_changes env base_branch true (M : Int)) =
        some (.str env.fullDiff.stdout) ∧
      objLookup "truncated" (analyze_file_changes env base_branch true (M : Int)) =
        some (.bool false)) := by
  constructor
  · intro hlt
    have hgt : (((pySplitNL env.fullDiff.stdout).length : Int)) > (M : Int) := by
      exact_mod_cast hlt
    simp [analyze_file_changes, hok, processDiff, hgt, pyTake_ofNat, toString_intOfNat,
      objLookup, List.lookup]
  · intro hle
    have hngt : ¬ (((pySplitNL env.fullDiff.stdout).length : Int)) > (M : Int) := by
      simp only [not_lt]
      exact_mod_cast hle
    simp [analyze_file_changes, hok, processDiff, hngt, objLookup, List.lookup]

/-- Concrete git environment with a three-line diff, used by witnesses. -/
def sampleGitEnv : GitEnv :=
  { nameStatus := { exitCode := 0, stdout := "M\tfoo.py\n", stderr := "" },
    diffStat := { exitCode := 0, stdout := "", stderr := "" },
    fullDiff := { exitCode := 0, stdout := "line one\nline two\nline three", stderr := "" },
    commitLog := { exitCode := 0, stdout := "", stderr := "" } }

/-- Witness for C1 at a concrete environment: a three-line diff truncated
to two lines, and the same diff left alone with a limit of five. -/
theorem analyze_file_changes_truncation_law_witness :
    objLookup "diff" (analyze_file_changes sampleGitEnv "main" true (2 : Int)) =
      some (.str ("line one\nline two"
        ++ "\n\n... Output truncated. Showing 2 of 3 lines ..."
        ++ "\n... Use max_diff_lines parameter to see more ...")) ∧
    objLookup "truncated" (analyze_file_changes sampleGitEnv "main" true (2 : Int)) =
      some (.bool true) ∧
    objLookup "diff" (analyze_file_changes sampleGitEnv "main" true (5 : Int)) =
      some (.str "line one\nline two\nline three") ∧
    objLookup "truncated" (analyze_file_changes sampleGitEnv "main" true (5 : Int)) =
      some (.bool false) := by
  have h2 := analyze_file_changes_truncation_law sampleGitEnv "main" 2 rfl
  have h5 := analyze_file_changes_truncation_law sampleGitEnv "main" 5 rfl
  exact ⟨(h2.1 (by decide)).1, (h2.1 (by decide)).2,
         (h5.2 (by decide)).1, (h5.2 (by decide)).2⟩

/-- Model of one JSON event object from github_events.json, holding the
fields get_workflow_status reads; an Option field is none when the key
is absent (event.get returns its default). -/
structure CIEvent where
  event : Option String
  workflow_name : Option String
  run_id : Option Nat
  status : Option String
  conclusion : Option String
  updated_at : Option String
deriving DecidableEq

/-- State of the github_events.json file at call time: missing, present
but unreadable (open or json.load raises, carrying str(e)), or a
well-formed array of events. -/
inductive EventsFile where
  | absent
  | malformed (msg : String)
  | wellFormed (events : List CIEvent)

/-- Python slicing events[-limit:]: for a positive limit the last limit
elements (all of them when limit exceeds the length), for limit = 0 the
whole list, for a negative limit everything from index -limit on. -/
def pyTailSlice (events : List α) (limit : Int) : List α :=
  if 0 < limit then events.drop (events.length - limit.toNat)
  else events.drop (-limit).toNat

/-- Result of get_recent_actions_events: the JSON array of the selected
events, or the JSON object with the error field. -/
inductive RecentResult where
  | events (evs : List CIEvent)
  | errorObj (msg : String)
deriving DecidableEq

/-- Model of get_recent_actions_events (github-actions-integration
server.py lines 178-193): an absent file yields the empty array, a
failing read yields the error object, otherwise the slice
events[-limit:] is returned. -/
def get_recent_actions_events (file : EventsFile) (limit : Int) : RecentResult :=
  match file with
  | .absent => .events []
  | .malformed msg => .errorObj ("Failed to read events: " ++ msg)
  | .wellFormed events => .events (pyTailSlice events limit)

/-- Sample workflow-run event used by concrete witnesses. -/
def sampleEvent : CIEvent :=
  { event := some "workflow_run", workflow_name := some "CI", run_id := some 1,
    status := some "completed", conclusion := some "success",
    updated_at := some "2024-01-01T00:00:00Z" }

/-- C7 counterexample: with a one-event log, limit 0 returns that event,
not the last zero entries (the empty list) the claim asks for. -/
theorem recent_events_limit_zero_counterexample :
    get_recent_actions_events (.wellFormed [sampleEvent]) 0 = .events [sampleEvent] ∧
    RecentResult.events [sampleEvent] ≠ .events [] := by
  exact ⟨rfl, by decide⟩

/-- C7 amended: for every limit N >= 1, get_recent_actions_events
returns a suffix of the stored event array (the stored order) of length
min N (length of the log); a missing file yields the empty array and an
empty log yields the empty array. -/
theorem recent_events_suffix_law (evs : List CIEvent) (limit : Int) (h1 : 1 ≤ limit) :
    get_recent_actions_events .absent limit = .events [] ∧
    get_recent_actions_events (.wellFormed []) limit = .events [] ∧
    ∃ r, get_recent_actions_events (.wellFormed evs) limit = .events r ∧
      r <:+ evs ∧ r.length = min limit.toNat evs.length := by
  have hpos : (0 : Int) < limit := by omega
  refine ⟨rfl, ?_, ?_⟩
  · simp [get_recent_actions_events, pyTailSlice, hpos]
  · refine ⟨evs.drop (evs.length - limit.toNat), ?_, List.drop_suffix _ _, ?_⟩
    · simp [get_recent_actions_events, pyTailSlice, hpos]
    · have := evs.length_drop (evs.length - limit.toNat)
      omega

/-- Witness for C7 amended at limit 1 on a one-event log. -/
theorem recent_events_suffix_law_witness :
    get_recent_actions_events .absent 1 = .events [] ∧
    get_recent_actions_events (.wellFormed []) 1 = .events [] ∧
    ∃ r, get_recent_actions_events (.wellFormed [sampleEvent]) 1 = .events r ∧
      r <:+ [sampleEvent] ∧ r.length = min (1 : Int).toNat [sampleEvent].length :=
  recent_events_suffix_law [sampleEvent] 1 (by decide)

/-- C9: with an existing log, limit 0 returns every event (the slice
events[-0:] is the whole array), and a negative limit returns all but
the first |limit| events instead of a last-N suffix. -/
theorem recent_events_zero_and_negative (evs : List CIEvent) (limit : Int)
    (hneg : limit < 0) :
    get_recent_actions_events (.wellFormed evs) 0 = .events evs ∧
    get_recent_actions_events (.wellFormed evs) limit = .events (evs.drop limit.natAbs) := by
  constructor
  · simp [get_recent_actions_events, pyTailSlice]
  · have hnpos : ¬ (0 : Int) < limit := by omega
    have habs : (-limit).toNat = limit.natAbs := by omega
    simp [get_recent_actions_events, pyTailSlice, hnpos, habs]

/-- Witness for C9: a one-event log with limit 0 returns the event, and
limit -1 drops it. -/
theorem recent_events_zero_and_negative_witness :
    get_recent_actions_events (.wellFormed [sampleEvent]) 0 = .events [sampleEvent] ∧
    get_recent_actions_events (.wellFormed [sampleEvent]) (-1) =
      .events ([sampleEvent].drop (Int.natAbs (-1))) :=
  recent_events_zero_and_negative [sampleEvent] (-1) (by decide)

/-- One value of the latest_status dict (github-actions-integration
server.py lines 226-232): the five projected fields of an event. -/
structure StatusEntry where
  workflow_name : String
  run_id : Option Nat
  status : Option String
  conclusion : Option String
  updated_at : Option String
deriving DecidableEq

/-- The dict value built for an event (lines 216-220 and 226-232); the
grouping name defaults to "unknown" when the event has no
workflow_name key. -/
def projectEvent (e : CIEvent) : StatusEntry :=
  { workflow_name := e.workflow_name.getD "unknown",
    run_id := e.run_id, status := e.status, conclusion := e.conclusion,
    updated_at := e.updated_at }

/-- Replace the value stored under key k, keeping dict insertion order
(Python dict assignment to an existing key). -/
def updateAssoc (k : String) (v : StatusEntry) :
    List (String × StatusEntry) → List (String × StatusEntry)
  | [] => []
  | (k₁, v₁) :: rest =>
    if k₁ = k then (k₁, v) :: rest else (k₁, v₁) :: updateAssoc k v rest

/-- Lexicographic code-point comparison of character lists, the helper
for pyStrLt. -/
def pyStrLtChars : List Char → List Char → Bool
  | [], [] => false
  | [], _ :: _ => true
  | _ :: _, [] => false
  | a :: as, b :: bs =>
    if a < b then true else if b < a then false else pyStrLtChars as bs

/-- Model of the Python string comparison s1 < s2: lexicographic over
code points, with a proper prefix below any extension. -/
def pyStrLt (s₁ s₂ : String) : Bool :=
  pyStrLtChars s₁.data s₂.data

/-- One iteration of the grouping loop (lines 215-232).  The Python
condition is: key not in latest_status or (updated_at and
latest_status[key].get("updated_at", "") < updated_at).  A new-event
updated_at of None or the empty string is falsy and keeps the current
candidate; when the stored candidate has updated_at None the comparison
None < str raises TypeError. -/
def stepStatus (acc : List (String × StatusEntry)) (e : CIEvent) :
    Except PyError (List (String × StatusEntry)) :=
  match acc.lookup (e.workflow_name.getD "unknown") with
  | none => .ok (acc ++ [(e.workflow_name.getD "unknown", projectEvent e)])
  | some cur =>
    match e.updated_at with
    | none => .ok acc
    | some u =>
      if u = "" then .ok acc
      else
        match cur.updated_at with
        | none => .error .typeError
        | some s =>
          if pyStrLt s u then
            .ok (updateAssoc (e.workflow_name.getD "unknown") (projectEvent e) acc)
          else .ok acc

/-- The grouping loop folded over the filtered events in order. -/
def statusFold (acc : List (String × StatusEntry)) :
    List CIEvent → Except PyError (List (String × StatusEntry))
  | [] => .ok acc
  | e :: rest =>
    match stepStatus acc e with
    | .ok acc₂ => statusFold acc₂ rest
    | .error err => .error err

/-- Events kept by the workflow_run filter (line 209). -/
def workflowRunEvents (events : List CIEvent) : List CIEvent :=
  events.filter (fun e => e.event == some "workflow_run")

/-- Optional workflow-name filter (lines 211-212); a Python argument of
None or the empty string is falsy and disables the filter. -/
def filterByName (arg : Option String) (events : List CIEvent) : List CIEvent :=
  match arg with
  | none => events
  | some w =>
    if w = "" then events
    else events.filter (fun e => e.workflow_name == some w)

/-- The status reduction over a well-formed event array: filter to
workflow_run events, optionally filter by name, group keeping the
latest entry per name, and return the dict values in insertion order. -/
def latestStatusList (events : List CIEvent) (arg : Option String) :
    Except PyError (List StatusEntry) :=
  match statusFold [] (filterByName arg (workflowRunEvents events)) with
  | .ok acc => .ok (acc.map Prod.snd)
  | .error err => .error err

/-- JSON encoding of one status entry, keys in source order. -/
def statusEntryToJVal (en : StatusEntry) : JVal :=
  .obj [("workflow_name", .str en.workflow_name),
        ("run_id", match en.run_id with | some n => .num n | none => .null),
        ("status", match en.status with | some s => .str s | none => .null),
        ("conclusion", match en.conclusion with | some s => .str s | none => .null),
        ("updated_at", match en.updated_at with | some s => .str s | none => .null)]

/-- The CPython message of the TypeError raised by comparing None to a
string with the less-than operator. -/
def noneLtStrMsg : String :=
  "\x27<\x27 not supported between instances of \x27NoneType\x27 and \x27str\x27"

/-- A PyError rendered as str(e) would render the exception. -/
def pyErrMsg : PyError → String
  | .typeError => noneLtStrMsg
  | .fileNotFound => "No such file or directory"
  | .indexError => "list index out of range"

/-- Model of get_workflow_status (github-actions-integration server.py
lines 196-236): empty array when the log file is missing, the reduced
status list when the reduction succeeds, and the except-handler error
object when reading or reducing raises. -/
def get_workflow_status (file : EventsFile) (workflow_name : Option String) : JVal :=
  match file with
  | .absent => .arr []
  | .malformed msg => .obj [("error", .str ("Failed to get workflow status: " ++ msg))]
  | .wellFormed events =>
    match latestStatusList events workflow_name with
    | .ok entries => .arr (entries.map statusEntryToJVal)
    | .error err => .obj [("error", .str ("Failed to get workflow status: " ++ pyErrMsg err))]

/-- Nothing is lexicographically below the empty character list. -/
theorem pyStrLtChars_nil (l : List Char) : pyStrLtChars l [] = false := by
  cases l <;> rfl

/-- No string is lexicographically below the empty string. -/
theorem pyStrLt_empty (s : String) : pyStrLt s "" = false :=
  pyStrLtChars_nil s.data

/-- The two concrete workflow-run events of the latest-wins law. -/
def evJan1 : CIEvent :=
  { event := some "workflow_run", workflow_name := some "CI", run_id := some 1,
    status := some "completed", conclusion := some "failure",
    updated_at := some "2024-01-01T00:00:00Z" }

/-- Companion event dated one day later. -/
def evJan2 : CIEvent :=
  { event := some "workflow_run", workflow_name := some "CI", run_id := some 2,
    status := some "completed", conclusion := some "success",
    updated_at := some "2024-01-02T00:00:00Z" }

/-- C2: with exactly the two events evJan1 and evJan2 in either order,
get_workflow_status returns only the entry projected from the
lexicographically later one; and in general, one grouping step keeps
the current candidate (whose updated_at is the string s) unless the new
event carries an updated_at that is present and lexicographically
greater than s, in which case the candidate is replaced in place. -/
theorem get_workflow_status_latest_wins (acc : List (String × StatusEntry))
    (e : CIEvent) (cur : StatusEntry) (s : String)
    (hl : acc.lookup (e.workflow_name.getD "unknown") = some cur)
    (hs : cur.updated_at = some s) :
    get_workflow_status (.wellFormed [evJan1, evJan2]) none =
      .arr [statusEntryToJVal (projectEvent evJan2)] ∧
    get_workflow_status (.wellFormed [evJan2, evJan1]) none =
      .arr [statusEntryToJVal (projectEvent evJan2)] ∧
    stepStatus acc e =
      .ok (match e.updated_at with
           | none => acc
           | some u =>
             if pyStrLt s u then
               updateAssoc (e.workflow_name.getD "unknown") (projectEvent e) acc
             else acc) := by
  refine ⟨rfl, rfl, ?_⟩
  cases hu : e.updated_at with
  | none => simp [stepStatus, hl, hu]
  | some u =>
    by_cases hu0 : u = ""
    · subst hu0
      simp [stepStatus, hl, hu, hs, pyStrLt_empty]
    · cases hlt : pyStrLt s u
      · simp [stepStatus, hl, hu, hu0, hs, hlt]
      · simp [stepStatus, hl, hu, hu0, hs, hlt]

/-- Witness for C2: a concrete step where the stored candidate is the
January 1 entry and the new event is dated January 2. -/
theorem get_workflow_status_latest_wins_witness :
    get_workflow_status (.wellFormed [evJan1, evJan2]) none =
      .arr [statusEntryToJVal (projectEvent evJan2)] ∧
    get_workflow_status (.wellFormed [evJan2, evJan1]) none =
      .arr [statusEntryToJVal (projectEvent evJan2)] ∧
    stepStatus [("CI", projectEvent evJan1)] evJan2 =
      .ok (match evJan2.updated_at with
           | none => [("CI", projectEvent evJan1)]
           | some u =>
             if pyStrLt "2024-01-01T00:00:00Z" u then
               updateAssoc (evJan2.workflow_name.getD "unknown") (projectEvent evJan2)
                 [("CI", projectEvent evJan1)]
             else [("CI", projectEvent evJan1)]) :=
  get_workflow_status_latest_wins [("CI", projectEvent evJan1)] evJan2
    (projectEvent evJan1) "2024-01-01T00:00:00Z" rfl rfl

/-- Workflow-run event with no updated_at key, for the TypeError path. -/
def evNoStamp : CIEvent :=
  { event := some "workflow_run", workflow_name := some "CI", run_id := some 7,
    status := some "queued", conclusion := none, updated_at := none }

/-- C10: a workflow_run event without updated_at followed by one for the
same workflow name with a string updated_at makes the tie-break compare
None against a string; the TypeError is caught by the operation-level
handler, so get_workflow_status returns the JSON error object rather
than a status summary list. -/
theorem workflow_status_none_timestamp_error :
    latestStatusList [evNoStamp, evJan2] none = .error .typeError ∧
    get_workflow_status (.wellFormed [evNoStamp, evJan2]) none =
      .obj [("error", .str ("Failed to get workflow status: " ++ noneLtStrMsg))] :=
  ⟨rfl, rfl⟩

/-- Keys are unchanged by an in-place update of one value. -/
theorem updateAssoc_keys (k : String) (v : StatusEntry) :
    ∀ acc : List (String × StatusEntry),
      (updateAssoc k v acc).map Prod.fst = acc.map Prod.fst := by
  intro acc
  induction acc with
  | nil => rfl
  | cons q rest ih =>
    obtain ⟨k₁, v₁⟩ := q
    by_cases hk : k₁ = k
    · simp [updateAssoc, hk]
    · simp [updateAssoc, hk, ih]

/-- A pair present after an in-place update was already present or is
the updated pair. -/
theorem updateAssoc_mem (k : String) (v : StatusEntry) (p : String × StatusEntry) :
    ∀ acc : List (String × StatusEntry),
      p ∈ updateAssoc k v acc → p ∈ acc ∨ p = (k, v) := by
  intro acc
  induction acc with
  | nil => intro hp; exact Or.inl hp
  | cons q rest ih =>
    obtain ⟨k₁, v₁⟩ := q
    intro hp
    by_cases hk : k₁ = k
    · simp only [updateAssoc, if_pos hk] at hp
      rcases List.mem_cons.mp hp with h | h
      · right; rw [h, hk]
      · left; exact List.mem_cons_of_mem _ h
    · simp only [updateAssoc, if_neg hk] at hp
      rcases List.mem_cons.mp hp with h | h
      · left; rw [h]; exact List.mem_cons_self _ _
      · rcases ih h with h₂ | h₂
        · left; exact List.mem_cons_of_mem _ h₂
        · right; exact h₂

/-- A failed lookup means the key is absent from the stored keys. -/
theorem lookup_none_not_mem (k : String) :
    ∀ acc : List (String × StatusEntry),
      acc.lookup k = none → k ∉ acc.map Prod.fst := by
  intro acc
  induction acc with
  | nil => intro _ h; exact absurd h (List.not_mem_nil k)
  | cons q rest ih =>
    obtain ⟨k₁, v₁⟩ := q
    intro hl hmem
    by_cases hk : k = k₁
    · have hb : (k == k₁) = true := beq_iff_eq.mpr hk
      simp only [List.lookup, hb] at hl
      exact Option.noConfusion hl
    · have hb : (k == k₁) = false := by
        simp [hk]
      simp only [List.lookup, hb] at hl
      simp only [List.map_cons, List.mem_cons] at hmem
      rcases hmem with h | h
      · exact hk h
      · exact ih hl h

/-- Invariant of the grouping accumulator: keys are distinct, each value
records its own key as workflow_name, and every value is the projection
of an event from src. -/
def accWF (src : List CIEvent) (acc : List (String × StatusEntry)) : Prop :=
  (acc.map Prod.fst).Nodup ∧
  ∀ p ∈ acc, p.1 = p.2.workflow_name ∧ ∃ e ∈ src, p.2 = projectEvent e

/-- One grouping step preserves the accumulator invariant. -/
theorem stepStatus_wf {src : List CIEvent} {acc acc₂ : List (String × StatusEntry)}
    {e : CIEvent} (hwf : accWF src acc) (he : e ∈ src)
    (h : stepStatus acc e = .ok acc₂) : accWF src acc₂ := by
  cases hl : acc.lookup (e.workflow_name.getD "unknown") with
  | none =>
    simp only [stepStatus, hl, Except.ok.injEq] at h
    subst h
    constructor
    · have hnotin := lookup_none_not_mem _ acc hl
      simp [List.nodup_append, hwf.1, hnotin]
    · intro p hp
      rcases List.mem_append.mp hp with hp | hp
      · exact hwf.2 p hp
      · simp only [List.mem_singleton] at hp
        subst hp
        exact ⟨rfl, e, he, rfl⟩
  | some cur =>
    cases hu : e.updated_at with
    | none =>
      simp only [stepStatus, hl, hu, Except.ok.injEq] at h
      subst h; exact hwf
    | some u =>
      by_cases hu0 : u = ""
      · subst hu0
        simp only [stepStatus, hl, hu, if_pos rfl] at h
        rw [if_pos trivial] at h
        rw [Except.ok.injEq] at h
        subst h; exact hwf
      · cases hcur : cur.updated_at with
        | none =>
          simp only [stepStatus, hl, hu, if_neg hu0, hcur] at h
          exact Except.noConfusion h
        | some s =>
          cases hlt : pyStrLt s u with
          | false =>
            simp only [stepStatus, hl, hu, if_neg hu0, hcur, hlt, Bool.false_eq_true,
              if_false, Except.ok.injEq] at h
            subst h; exact hwf
          | true =>
            simp only [stepStatus, hl, hu, if_neg hu0, hcur, hlt, if_true,
              Except.ok.injEq] at h
            subst h
            constructor
            · rw [updateAssoc_keys]
              exact hwf.1
            · intro p hp
              rcases updateAssoc_mem _ _ p acc hp with hp₂ | hp₂
              · exact hwf.2 p hp₂
              · subst hp₂
                exact ⟨rfl, e, he, rfl⟩

/-- The grouping fold preserves the accumulator invariant. -/
theorem statusFold_wf {src : List CIEvent} :
    ∀ (evs : List CIEvent) (acc res : List (String × StatusEntry)),
      accWF src acc → (∀ e ∈ evs, e ∈ src) →
      statusFold acc evs = .ok res → accWF src res := by
  intro evs
  induction evs with
  | nil =>
    intro acc res hwf _ h
    simp only [statusFold, Except.ok.injEq] at h
    subst h; exact hwf
  | cons e rest ih =>
    intro acc res hwf hsub h
    cases hstep : stepStatus acc e with
    | ok acc₂ =>
      simp only [statusFold, hstep] at h
      exact ih acc₂ res (stepStatus_wf hwf (hsub e (List.mem_cons_self e rest)) hstep)
        (fun x hx => hsub x (List.mem_cons_of_mem e hx)) h
    | error err =>
      simp only [statusFold, hstep] at h
      exact Except.noConfusion h

/-- The optional name filter only removes events. -/
theorem mem_filterByName {arg : Option String} {events : List CIEvent} {e : CIEvent}
    (h : e ∈ filterByName arg events) : e ∈ events := by
  cases arg with
  | none => exact h
  | some w =>
    by_cases hw : w = ""
    · simpa [filterByName, hw] using h
    · simp only [filterByName, if_neg hw] at h
      exact (List.mem_filter.mp h).1

/-- Membership in the workflow_run filter. -/
theorem mem_workflowRunEvents {events : List CIEvent} {e : CIEvent}
    (h : e ∈ workflowRunEvents events) :
    e ∈ events ∧ e.event = some "workflow_run" := by
  have h₂ := List.mem_filter.mp h
  exact ⟨h₂.1, by simpa using h₂.2⟩

/-- C8: every successful result of get_workflow_status has at most one
entry per workflow name (the returned names are pairwise distinct),
every entry is the five-field projection of some workflow_run event of
the log (with a missing workflow_name key projected to "unknown"), and
its JSON object consists of exactly the five projected keys. -/
theorem workflow_status_invariants (events : List CIEvent) (arg : Option String)
    (entries : List StatusEntry)
    (h : latestStatusList events arg = .ok entries) :
    get_workflow_status (.wellFormed events) arg = .arr (entries.map statusEntryToJVal) ∧
    (entries.map (fun en => en.workflow_name)).Nodup ∧
    (∀ en ∈ entries, ∃ e, e ∈ events ∧ e.event = some "workflow_run" ∧
      en = projectEvent e) ∧
    (∀ e : CIEvent, (projectEvent e).workflow_name = e.workflow_name.getD "unknown") ∧
    (∀ en ∈ entries, objKeys (statusEntryToJVal en) =
      ["workflow_name", "run_id", "status", "conclusion", "updated_at"]) := by
  cases hf : statusFold [] (filterByName arg (workflowRunEvents events)) with
  | error err =>
    simp only [latestStatusList, hf] at h
    exact Except.noConfusion h
  | ok acc =>
    have hacc : entries = acc.map Prod.snd := by
      simp only [latestStatusList, hf, Except.ok.injEq] at h
      exact h.symm
    have hinit : accWF (filterByName arg (workflowRunEvents events)) [] := by
      refine ⟨List.nodup_nil, ?_⟩
      intro p hp
      exact absurd hp (List.not_mem_nil p)
    have hwf : accWF (filterByName arg (workflowRunEvents events)) acc :=
      statusFold_wf (filterByName arg (workflowRunEvents events)) [] acc hinit
        (fun _ he => he) hf
    refine ⟨?_, ?_, ?_, fun _ => rfl, ?_⟩
    · simp [get_workflow_status, h]
    · subst hacc
      have hmapeq : (acc.map Prod.snd).map (fun en => en.workflow_name)
          = acc.map Prod.fst := by
        rw [List.map_map]
        exact List.map_congr_left (fun p hp => ((hwf.2 p hp).1).symm)
      rw [hmapeq]
      exact hwf.1
    · intro en hen
      subst hacc
      rcases List.mem_map.mp hen with ⟨p, hp, hpe⟩
      rcases (hwf.2 p hp).2 with ⟨e, he, hpe₂⟩
      have h₂ := mem_workflowRunEvents (mem_filterByName he)
      exact ⟨e, h₂.1, h₂.2, by rw [← hpe, hpe₂]⟩
    · intro en _
      rfl

/-- Witness for C8 on the two-event log: a single entry for "CI". -/
theorem workflow_status_invariants_witness :
    get_workflow_status (.wellFormed [evJan1, evJan2]) none =
      .arr ([projectEvent evJan2].map statusEntryToJVal) ∧
    ([projectEvent evJan2].map (fun en => en.workflow_name)).Nodup ∧
    (∀ en ∈ [projectEvent evJan2], ∃ e, e ∈ [evJan1, evJan2] ∧
      e.event = some "workflow_run" ∧ en = projectEvent e) ∧
    (∀ e : CIEvent, (projectEvent e).workflow_name = e.workflow_name.getD "unknown") ∧
    (∀ en ∈ [projectEvent evJan2], objKeys (statusEntryToJVal en) =
      ["workflow_name", "run_id", "status", "conclusion", "updated_at"]) :=
  workflow_status_invariants [evJan1, evJan2] none [projectEvent evJan2] rfl

/-- The DEFAULT_TEMPLATES table (github-actions-integration server.py
lines 23-31), in source order: filename to human label. -/
def DEFAULT_TEMPLATES : List (String × String) :=
  [("bug.md", "Bug Fix"), ("feature.md", "Feature"), ("docs.md", "Documentation"),
   ("refactor.md", "Refactor"), ("test.md", "Test"), ("performance.md", "Performance"),
   ("security.md", "Security")]

/-- The TYPE_MAPPING change-type synonym table (lines 38-52). -/
def TYPE_MAPPING : List (String × String) :=
  [("bug", "bug.md"), ("fix", "bug.md"), ("feature", "feature.md"),
   ("enhancement", "feature.md"), ("docs", "docs.md"), ("documentation", "docs.md"),
   ("refactor", "refactor.md"), ("cleanup", "refactor.md"), ("test", "test.md"),
   ("testing", "test.md"), ("performance", "performance.md"),
   ("optimization", "performance.md"), ("security", "security.md")]

/-- One template dict of the get_pr_templates listing (lines 134-141). -/
structure Template where
  filename : String
  type : String
  content : String
deriving DecidableEq

/-- Build the template dicts in table order; reading a file via the
supplied filesystem (read_text) returns none when the file is missing,
which raises FileNotFoundError and aborts the comprehension. -/
def templatesFrom (fs : String → Option String) :
    List (String × String) → Except PyError (List Template)
  | [] => .ok []
  | (filename, ty) :: rest =>
    match fs filename with
    | none => .error .fileNotFound
    | some content =>
      match templatesFrom fs rest with
      | .ok ts => .ok ({ filename := filename, type := ty, content := content } :: ts)
      | .error err => .error err

/-- Model of get_pr_templates (github-actions-integration server.py
lines 131-143).  The body has no try/except: a missing template file
makes the read raise, and the exception escapes the operation. -/
def get_pr_templates (fs : String → Option String) : Except PyError (List Template) :=
  templatesFrom fs DEFAULT_TEMPLATES

/-- JSON encoding of one template dict. -/
def templateToJVal (t : Template) : JVal :=
  .obj [("filename", .str t.filename), ("type", .str t.type), ("content", .str t.content)]

/-- Model of the Python expression s.lower() over the code points
handled by Char.toLower (the table keys are ASCII). -/
def pyLower (s : String) : String :=
  String.mk (s.data.map Char.toLower)

/-- The suggestion object built at lines 166-171. -/
def suggestionJVal (sel : Template) (changes_summary change_type : String) : JVal :=
  .obj [("recommended_template", templateToJVal sel),
        ("reasoning", .str ("Based on your analysis: \x27" ++ changes_summary
          ++ "\x27, this appears to be a " ++ change_type ++ " change.")),
        ("template_content", .str sel.content),
        ("usage_hint", .str "Claude can help you fill out this template based on the specific changes in your PR.")]

/-- Model of suggest_template (github-actions-integration server.py
lines 146-173).  It re-reads the templates through get_pr_templates
(and therefore propagates its exception), maps the lower-cased
change_type through TYPE_MAPPING with default "feature.md", and picks
the first template with that filename, defaulting to templates[0]
(whose evaluation raises IndexError on an empty listing). -/
def suggest_template (fs : String → Option String)
    (changes_summary change_type : String) : Except PyError JVal :=
  match get_pr_templates fs with
  | .error err => .error err
  | .ok templates =>
    match templates with
    | [] => .error .indexError
    | t₀ :: _ =>
      let template_file := (TYPE_MAPPING.lookup (pyLower change_type)).getD "feature.md"
      let sel := (templates.find? (fun t => t.filename == template_file)).getD t₀
      .ok (suggestionJVal sel changes_summary change_type)

/-- C3 counterexample: with the template files unreadable,
get_pr_templates (lines 131-143, no handler) propagates the
FileNotFoundError across the operation boundary instead of returning a
JSON object with an error field. -/
theorem get_pr_templates_raises_on_missing_file :
    get_pr_templates (fun _ => none) = .error .fileNotFound := rfl

/-- C3 amended: analyze_file_changes, get_recent_actions_events and
get_workflow_status catch every failure and return the JSON error
object — in particular a failing git diff yields the structured Git
error object carrying the command stderr — while get_pr_templates and
suggest_template have no handler, so a template-file read failure
propagates out of suggest_template as an exception. -/
theorem operations_error_handling (env : GitEnv) (base_branch : String)
    (include_diff : Bool) (max_diff_lines : Int)
    (hfail : env.nameStatus.exitCode ≠ 0)
    (fs : String → Option String) (err : PyError)
    (hread : get_pr_templates fs = .error err)
    (changes_summary change_type msg : String) (limit : Int) (arg : Option String) :
    analyze_file_changes env base_branch include_diff max_diff_lines =
      .obj [("error", .str ("Git error: " ++ env.nameStatus.stderr))] ∧
    get_recent_actions_events (.malformed msg) limit =
      .errorObj ("Failed to read events: " ++ msg) ∧
    get_workflow_status (.malformed msg) arg =
      .obj [("error", .str ("Failed to get workflow status: " ++ msg))] ∧
    suggest_template fs changes_summary change_type = .error err := by
  refine ⟨?_, rfl, rfl, ?_⟩
  · simp [analyze_file_changes, hfail]
  · simp [suggest_template, hread]

/-- Git environment whose name-status command fails. -/
def failGitEnv : GitEnv :=
  { nameStatus := { exitCode := 128, stdout := "", stderr := "fatal: bad revision" },
    diffStat := { exitCode := 0, stdout := "", stderr := "" },
    fullDiff := { exitCode := 0, stdout := "", stderr := "" },
    commitLog := { exitCode := 0, stdout := "", stderr := "" } }

/-- Witness for C3 amended at concrete failing environments. -/
theorem operations_error_handling_witness :
    analyze_file_changes failGitEnv "main" true 500 =
      .obj [("error", .str ("Git error: " ++ failGitEnv.nameStatus.stderr))] ∧
    get_recent_actions_events (.malformed "boom") 10 =
      .errorObj ("Failed to read events: " ++ "boom") ∧
    get_workflow_status (.malformed "boom") none =
      .obj [("error", .str ("Failed to get workflow status: " ++ "boom"))] ∧
    suggest_template (fun _ => none) "adds a tool" "bug" = .error .fileNotFound :=
  operations_error_handling failGitEnv "main" true 500 (by decide)
    (fun _ => none) .fileNotFound rfl "adds a tool" "bug" "boom" 10 none

/-- The filenames of a successful template listing are the table keys. -/
theorem templatesFrom_filenames (fs : String → Option String) :
    ∀ (table : List (String × String)) (ts : List Template),
      templatesFrom fs table = .ok ts →
      ts.map (fun t => t.filename) = table.map Prod.fst := by
  intro table
  induction table with
  | nil =>
    intro ts h
    simp only [templatesFrom, Except.ok.injEq] at h
    subst h; rfl
  | cons p rest ih =>
    obtain ⟨filename, ty⟩ := p
    intro ts h
    cases hfs : fs filename with
    | none =>
      simp only [templatesFrom, hfs] at h
      exact Except.noConfusion h
    | some content =>
      cases hrec : templatesFrom fs rest with
      | error err =>
        simp only [templatesFrom, hfs, hrec] at h
        exact Except.noConfusion h
      | ok ts₂ =>
        simp only [templatesFrom, hfs, hrec, Except.ok.injEq] at h
        subst h
        simp [ih ts₂ hrec]

/-- A filename occurring among a listing can be found by find?. -/
theorem find_of_mem_map {l : List Template} {name : String}
    (h : name ∈ l.map (fun t => t.filename)) :
    ∃ t, l.find? (fun x => x.filename == name) = some t ∧ t.filename = name := by
  rcases List.mem_map.mp h with ⟨t, ht, hte⟩
  have hsome : (l.find? (fun x => x.filename == name)).isSome := by
    rw [List.find?_isSome]
    exact ⟨t, ht, by simp [hte]⟩
  rcases Option.isSome_iff_exists.mp hsome with ⟨t₂, ht₂⟩
  refine ⟨t₂, ht₂, ?_⟩
  have hp := List.find?_some ht₂
  simpa using hp

/-- A value delivered by lookup is among the stored values. -/
theorem lookup_mem_values {l : List (String × String)} {k v : String}
    (h : l.lookup k = some v) : v ∈ l.map Prod.snd := by
  induction l with
  | nil => exact Option.noConfusion h
  | cons p rest ih =>
    obtain ⟨k₁, v₁⟩ := p
    by_cases hk : k = k₁
    · have hb : (k == k₁) = true := beq_iff_eq.mpr hk
      simp only [List.lookup, hb, Option.some.injEq] at h
      rw [List.map_cons]
      exact h ▸ List.mem_cons_self _ _
    · have hb : (k == k₁) = false := by simp [hk]
      simp only [List.lookup, hb] at h
      rw [List.map_cons]
      exact List.mem_cons_of_mem _ (ih h)

/-- Shared shape of the suggest_template result: whenever the listing
succeeds and the effective template filename occurs in the table, the
operation returns the suggestion built from the first template with
that filename. -/
theorem suggest_template_selects (fs : String → Option String)
    (templates : List Template) (changes_summary change_type name : String)
    (hok : get_pr_templates fs = .ok templates)
    (hname : (TYPE_MAPPING.lookup (pyLower change_type)).getD "feature.md" = name)
    (hmem : name ∈ DEFAULT_TEMPLATES.map Prod.fst) :
    ∃ t, templates.find? (fun x => x.filename == name) = some t ∧ t.filename = name ∧
      suggest_template fs changes_summary change_type =
        .ok (suggestionJVal t changes_summary change_type) := by
  have hnames := templatesFrom_filenames fs DEFAULT_TEMPLATES templates hok
  have hmem₂ : name ∈ templates.map (fun t => t.filename) := by
    rw [hnames]; exact hmem
  rcases find_of_mem_map hmem₂ with ⟨t, hfind, htn⟩
  cases htl : templates with
  | nil =>
    rw [htl] at hnames
    exact absurd hnames (by decide)
  | cons t₀ ts =>
    subst htl
    refine ⟨t, hfind, htn, ?_⟩
    simp only [suggest_template, hok, hname, hfind, Option.getD_some]

/-- Filesystem on which every template file is readable. -/
def fullFS : String → Option String := fun f => some ("content of " ++ f)

/-- The listing produced by get_pr_templates over fullFS. -/
def fullTemplates : List Template :=
  [{ filename := "bug.md", type := "Bug Fix", content := "content of bug.md" },
   { filename := "feature.md", type := "Feature", content := "content of feature.md" },
   { filename := "docs.md", type := "Documentation", content := "content of docs.md" },
   { filename := "refactor.md", type := "Refactor", content := "content of refactor.md" },
   { filename := "test.md", type := "Test", content := "content of test.md" },
   { filename := "performance.md", type := "Performance", content := "content of performance.md" },
   { filename := "security.md", type := "Security", content := "content of security.md" }]

/-- C4 counterexample: for the unmapped change_type "chore" the
operation returns the feature.md template (not the first table entry,
bug.md), the response has no error or explanation field, and no full
template set is attached. -/
theorem suggest_template_unknown_type_no_error_field :
    suggest_template fullFS "adds a config knob" "chore" =
      .ok (suggestionJVal
        { filename := "feature.md", type := "Feature", content := "content of feature.md" }
        "adds a config knob" "chore") ∧
    objLookup "error"
      (suggestionJVal
        { filename := "feature.md", type := "Feature", content := "content of feature.md" }
        "adds a config knob" "chore") = none ∧
    objLookup "templates"
      (suggestionJVal
        { filename := "feature.md", type := "Feature", content := "content of feature.md" }
        "adds a config knob" "chore") = none :=
  ⟨rfl, rfl, rfl⟩

/-- C4 amended: for every change_type whose lower-cased form is not a
key of TYPE_MAPPING, suggest_template falls back to the feature.md
template and returns the suggestion object built from it, with no
error or explanation field and no template set for manual selection. -/
theorem suggest_template_unknown_type_fallback (fs : String → Option String)
    (templates : List Template) (changes_summary change_type : String)
    (hok : get_pr_templates fs = .ok templates)
    (hmiss : TYPE_MAPPING.lookup (pyLower change_type) = none) :
    ∃ t, templates.find? (fun x => x.filename == "feature.md") = some t ∧
      t.filename = "feature.md" ∧
      suggest_template fs changes_summary change_type =
        .ok (suggestionJVal t changes_summary change_type) ∧
      objLookup "recommended_template" (suggestionJVal t changes_summary change_type) =
        some (templateToJVal t) ∧
      objLookup "error" (suggestionJVal t changes_summary change_type) = none ∧
      objLookup "templates" (suggestionJVal t changes_summary change_type) = none := by
  have hname : (TYPE_MAPPING.lookup (pyLower change_type)).getD "feature.md" = "feature.md" := by
    rw [hmiss]; rfl
  rcases suggest_template_selects fs templates changes_summary change_type "feature.md"
    hok hname (by decide) with ⟨t, h₁, h₂, h₃⟩
  exact ⟨t, h₁, h₂, h₃, rfl, rfl, rfl⟩

/-- Witness for C4 amended at the unmapped change_type "chore". -/
theorem suggest_template_unknown_type_fallback_witness :
    ∃ t, fullTemplates.find? (fun x => x.filename == "feature.md") = some t ∧
      t.filename = "feature.md" ∧
      suggest_template fullFS "adds tooling" "chore" =
        .ok (suggestionJVal t "adds tooling" "chore") ∧
      objLookup "recommended_template" (suggestionJVal t "adds tooling" "chore") =
        some (templateToJVal t) ∧
      objLookup "error" (suggestionJVal t "adds tooling" "chore") = none ∧
      objLookup "templates" (suggestionJVal t "adds tooling" "chore") = none :=
  suggest_template_unknown_type_fallback fullFS fullTemplates "adds tooling" "chore" rfl rfl

/-- C5: for every change_type whose lower-cased form is a key of
TYPE_MAPPING, suggest_template recommends a template whose filename is
exactly the mapped value, and the response carries no error field. -/
theorem suggest_template_mapped_type (fs : String → Option String)
    (templates : List Template) (changes_summary change_type v : String)
    (hok : get_pr_templates fs = .ok templates)
    (hhit : TYPE_MAPPING.lookup (pyLower change_type) = some v) :
    ∃ t, templates.find? (fun x => x.filename == v) = some t ∧ t.filename = v ∧
      suggest_template fs changes_summary change_type =
        .ok (suggestionJVal t changes_summary change_type) ∧
      objLookup "recommended_template" (suggestionJVal t changes_summary change_type) =
        some (templateToJVal t) ∧
      objLookup "error" (suggestionJVal t changes_summary change_type) = none := by
  have hv : v ∈ TYPE_MAPPING.map Prod.snd := lookup_mem_values hhit
  have hmem : v ∈ DEFAULT_TEMPLATES.map Prod.fst := by
    have hall : ∀ x ∈ TYPE_MAPPING.map Prod.snd, x ∈ DEFAULT_TEMPLATES.map Prod.fst := by
      decide
    exact hall v hv
  have hname : (TYPE_MAPPING.lookup (pyLower change_type)).getD "feature.md" = v := by
    rw [hhit]; rfl
  rcases suggest_template_selects fs templates changes_summary change_type v
    hok hname hmem with ⟨t, h₁, h₂, h₃⟩
  exact ⟨t, h₁, h₂, h₃, rfl, rfl⟩

/-- Witness for C5 at the mapped change_type "fix" (a synonym for
bug.md). -/
theorem suggest_template_mapped_type_witness :
    ∃ t, fullTemplates.find? (fun x => x.filename == "bug.md") = some t ∧
      t.filename = "bug.md" ∧
      suggest_template fullFS "patches a crash" "fix" =
        .ok (suggestionJVal t "patches a crash" "fix") ∧
      objLookup "recommended_template" (suggestionJVal t "patches a crash" "fix") =
        some (templateToJVal t) ∧
      objLookup "error" (suggestionJVal t "patches a crash" "fix") = none :=
  suggest_template_mapped_type fullFS fullTemplates "patches a crash" "fix" "bug.md" rfl rfl

/-- C6 counterexample: with include_diff=false the operation populates
the diff field with the fixed placeholder string, its files_changed
field is the raw git --name-status stdout (a string, not a list of
paths), and no changed-file count field exists in the response. -/
theorem analyze_no_diff_counterexample :
    objLookup "diff" (analyze_file_changes sampleGitEnv "main" false 500) =
      some (.str "Diff not included (set include_diff=true to see full diff)") ∧
    objLookup "files_changed" (analyze_file_changes sampleGitEnv "main" false 500) =
      some (.str "M\tfoo.py\n") ∧
    (∀ xs, objLookup "files_changed" (analyze_file_changes sampleGitEnv "main" false 500) ≠
      some (.arr xs)) ∧
    objLookup "num_files_changed" (analyze_file_changes sampleGitEnv "main" false 500) =
      none := by
  refine ⟨rfl, rfl, ?_, rfl⟩
  intro xs h
  rw [show objLookup "files_changed" (analyze_file_changes sampleGitEnv "main" false 500) =
    some (JVal.str "M\tfoo.py\n") from rfl] at h
  exact JVal.noConfusion (Option.some.inj h)

/-- C6 amended: for every environment whose name-status command
succeeds, analyze_file_changes with include_diff=false returns
files_changed as the raw name-status output string, no file-count
field, the fixed placeholder diff string, a false truncation flag and
a zero total_diff_lines. -/
theorem analyze_no_diff_fields (env : GitEnv) (base_branch : String)
    (max_diff_lines : Int) (hok : env.nameStatus.exitCode = 0) :
    objLookup "files_changed" (analyze_file_changes env base_branch false max_diff_lines) =
      some (.str env.nameStatus.stdout) ∧
    objLookup "num_files_changed" (analyze_file_changes env base_branch false max_diff_lines) =
      none ∧
    objLookup "diff" (analyze_file_changes env base_branch false max_diff_lines) =
      some (.str "Diff not included (set include_diff=true to see full diff)") ∧
    objLookup "truncated" (analyze_file_changes env base_branch false max_diff_lines) =
      some (.bool false) ∧
    objLookup "total_diff_lines" (analyze_file_changes env base_branch false max_diff_lines) =
      some (.num 0) := by
  refine ⟨?_, ?_, ?_, ?_, ?_⟩ <;>
    simp [analyze_file_changes, hok, objLookup, List.lookup]

/-- Witness for C6 amended at the sample environment. -/
theorem analyze_no_diff_fields_witness :
    objLookup "files_changed" (analyze_file_changes sampleGitEnv "develop" false 500) =
      some (.str sampleGitEnv.nameStatus.stdout) ∧
    objLookup "num_files_changed" (analyze_file_changes sampleGitEnv "develop" false 500) =
      none ∧
    objLookup "diff" (analyze_file_changes sampleGitEnv "develop" false 500) =
      some (.str "Diff not included (set include_diff=true to see full diff)") ∧
    objLookup "truncated" (analyze_file_changes sampleGitEnv "develop" false 500) =
      some (.bool false) ∧
    objLookup "total_diff_lines" (analyze_file_changes sampleGitEnv "develop" false 500) =
      some (.num 0) :=
  analyze_no_diff_fields sampleGitEnv "develop" 500 rfl
